import Mathlib

/-!
Verification development for the rootcause-opentelemetry event projection
engine.  The Rust sources are shallowly embedded: report trees, attachments,
the tri-state (`Option3`) event spec, the attachment classifier and listing
actions (`zold/attachments.rs`), the span event path (`span.rs`), the
builder wrappers (`builder.rs`), the recursive event recording
(`event.rs`, `event_builder.rs`).  `SystemTime` is modelled as `Nat`,
`StringValue` as `String`, `TypeId` as a `TypeTag` enumeration.
-/

namespace RootcauseOtel

/-- Rust `TypeId` of the attachment's inner value, restricted to the type
identifiers the engine inspects plus an open family for every other type. -/
inductive TypeTag where
  | systemTimeTag
  | backtraceTag
  | locationTag
  | keyValueTag
  | sentToTag
  | otherTag (n : Nat)
deriving DecidableEq, Repr

/-- One report attachment: its inner type id, its formatted text
(`format_inner().to_string()`), and the `SystemTime` payload used by
`downcast_inner::<SystemTime>` (meaningful only when the tag is
`systemTimeTag`). -/
structure Attachment where
  tag : TypeTag
  text : String
  timeVal : Nat := 0
deriving DecidableEq, Repr

/-- Rust `downcast_inner::<SystemTime>`: the payload when the inner type is
`SystemTime`. -/
def downcastSystemTime (a : Attachment) : Option Nat :=
  if a.tag = TypeTag.systemTimeTag then some a.timeVal else none

/-- Rust `downcast_attachment::<Backtrace>` combined with
`format_inner().to_string()`: the formatted text when the inner type is
`Backtrace`. -/
def downcastBacktraceText (a : Attachment) : Option String :=
  if a.tag = TypeTag.backtraceTag then some a.text else none

/-- Rust `downcast_inner::<Location>` (the location value is modelled by its
formatted text). -/
def downcastLocationText (a : Attachment) : Option String :=
  if a.tag = TypeTag.locationTag then some a.text else none

/-- Rust `downcast_inner::<KeyValue>` (the key/value is modelled by its
formatted text). -/
def downcastKeyValueText (a : Attachment) : Option String :=
  if a.tag = TypeTag.keyValueTag then some a.text else none

/-- A `rootcause` report node: context type name
(`current_context_type_name`), formatted context
(`format_current_context`), its ordered attachments, and its ordered
child reports. -/
inductive ReportTree where
  | node (ctxTypeName : String) (ctxText : String)
      (atts : List Attachment) (children : List ReportTree)
deriving Repr

/-- The report's ordered attachments. -/
def ReportTree.attachments : ReportTree → List Attachment
  | .node _ _ atts _ => atts

/-- The report's context type name. -/
def ReportTree.ctxTypeName : ReportTree → String
  | .node n _ _ _ => n

/-- The report's formatted context. -/
def ReportTree.ctxText : ReportTree → String
  | .node _ t _ _ => t

/-- The report's ordered children. -/
def ReportTree.children : ReportTree → List ReportTree
  | .node _ _ _ cs => cs

/-! ### `zold/attachments.rs` -/

/-- Rust `EventAttachments` (zold/attachments.rs): the per-node digest. -/
structure EventAttachments where
  timestamp : Option Nat := none
  backtrace : Option String := none
  location : Option String := none
  all : List (TypeTag × String) := []
  keyvals : List String := []
deriving DecidableEq, Repr

/-- Rust `AttachmentAction` (zold/attachments.rs). -/
inductive AttachmentAction where
  | smart
  | allAction
  | ofType (tag : TypeTag)
deriving DecidableEq, Repr

/-- One iteration of the loop in `EventAttachments::from`: record the
first-seen timestamp / location / backtrace, push every key/value, and
unconditionally append the `(type id, formatted text)` pair to `all`. -/
def stepFrom (res : EventAttachments) (a : Attachment) : EventAttachments :=
  let res := match downcastSystemTime a with
    | some st => if res.timestamp.isNone then { res with timestamp := some st } else res
    | none => res
  let res := match downcastLocationText a with
    | some lt => if res.location.isNone then { res with location := some lt } else res
    | none => res
  let res := match downcastKeyValueText a with
    | some kv => { res with keyvals := res.keyvals ++ [kv] }
    | none => res
  let res := match downcastBacktraceText a with
    | some bt => if res.backtrace.isNone then { res with backtrace := some bt } else res
    | none => res
  { res with all := res.all ++ [(a.tag, a.text)] }

/-- Rust `EventAttachments::from`: fold the loop body over the report's
attachments in order, starting from the empty digest. -/
def EventAttachments.ofReport (rep : ReportTree) : EventAttachments :=
  rep.attachments.foldl stepFrom {}

/-- Rust `EventAttachments::list_all`: every formatted text, in order. -/
def list_all (atts : EventAttachments) : List String :=
  atts.all.map (fun p => p.2)

/-- The loop of `EventAttachments::list_smartly`, carrying the
`ts_seen` / `bt_seen` / `lt_seen` flags. -/
def smartGo : List (TypeTag × String) → Bool → Bool → Bool → List String
  | [], _, _, _ => []
  | (tag, s) :: rest, ts, bt, lt =>
    if tag = TypeTag.systemTimeTag then
      if ts then s :: smartGo rest ts bt lt else smartGo rest true bt lt
    else if tag = TypeTag.backtraceTag then
      if bt then s :: smartGo rest ts bt lt else smartGo rest ts true lt
    else if tag = TypeTag.locationTag then
      if lt then s :: smartGo rest ts bt lt else smartGo rest ts bt true
    else if tag ≠ TypeTag.keyValueTag then
      s :: smartGo rest ts bt lt
    else
      smartGo rest ts bt lt

/-- Rust `EventAttachments::list_smartly`. -/
def list_smartly (atts : EventAttachments) : List String :=
  smartGo atts.all false false false

/-- Rust `EventAttachments::list_by_type_id`. -/
def list_by_type_id (atts : EventAttachments) (tag : TypeTag) : List String :=
  (atts.all.filter (fun p => p.1 = tag)).map (fun p => p.2)

/-- Output of one `AttachmentAction` (the strings the corresponding
`list_*` call pushes into the shared vector). -/
def applyAction (atts : EventAttachments) : AttachmentAction → List String
  | .smart => list_smartly atts
  | .allAction => list_all atts
  | .ofType tag => list_by_type_id atts tag

/-- Rust `EventAttachments::list_into_vec`: apply each action in order,
appending to the result vector (modelled as an accumulator). -/
def list_into_vec (atts : EventAttachments) :
    List AttachmentAction → List String → List String
  | [], res => res
  | a :: rest, res => list_into_vec atts rest (res ++ applyAction atts a)

/-! ### `spec.rs` -/

/-- Rust `Option3` (spec.rs): the tri-state field value. -/
inductive Option3 (T : Type) where
  | default
  | inferred
  | specific (t : T)
deriving DecidableEq, Repr

/-- Rust `ExceptionEventSpec` (spec.rs).  Recursive through the `children`
field, hence an inductive rather than a structure. -/
inductive ExceptionEventSpec where
  | mk (ex_type : Option3 String) (custom_message : Option String)
      (timestamp : Option3 (Option Nat)) (backtrace : Option3 String)
      (escaped : Option Bool) (attachments : List AttachmentAction)
      (children : Option3 ExceptionEventSpec)

/-- Field accessor for `ex_type`. -/
def ExceptionEventSpec.exTypeF : ExceptionEventSpec → Option3 String
  | .mk x _ _ _ _ _ _ => x

/-- Field accessor for `custom_message`. -/
def ExceptionEventSpec.customMessageF : ExceptionEventSpec → Option String
  | .mk _ m _ _ _ _ _ => m

/-- Field accessor for `timestamp`. -/
def ExceptionEventSpec.timestampF : ExceptionEventSpec → Option3 (Option Nat)
  | .mk _ _ t _ _ _ _ => t

/-- Field accessor for `backtrace`. -/
def ExceptionEventSpec.backtraceF : ExceptionEventSpec → Option3 String
  | .mk _ _ _ b _ _ _ => b

/-- Field accessor for `escaped`. -/
def ExceptionEventSpec.escapedF : ExceptionEventSpec → Option Bool
  | .mk _ _ _ _ e _ _ => e

/-- Field accessor for `attachments`. -/
def ExceptionEventSpec.attachmentsF : ExceptionEventSpec → List AttachmentAction
  | .mk _ _ _ _ _ a _ => a

/-- Field accessor for `children`. -/
def ExceptionEventSpec.childrenF : ExceptionEventSpec → Option3 ExceptionEventSpec
  | .mk _ _ _ _ _ _ c => c

/-- Rust `ExceptionEventConfig::ex_type` for `&mut ExceptionEventSpec`:
`self.ex_type = Option3::Inferred`. -/
def ExceptionEventSpec.ex_type : ExceptionEventSpec → ExceptionEventSpec
  | .mk _ m t b e a c => .mk .inferred m t b e a c

/-- Rust `set_ex_type`: `self.ex_type = Option3::Specific(v)`. -/
def ExceptionEventSpec.set_ex_type (v : String) : ExceptionEventSpec → ExceptionEventSpec
  | .mk _ m t b e a c => .mk (.specific v) m t b e a c

/-- Rust `custom_message`: `self.custom_message = Some(msg)`. -/
def ExceptionEventSpec.custom_message (msg : String) : ExceptionEventSpec → ExceptionEventSpec
  | .mk x _ t b e a c => .mk x (some msg) t b e a c

/-- Rust `timestamped`: `self.timestamp = Option3::Inferred`. -/
def ExceptionEventSpec.timestamped : ExceptionEventSpec → ExceptionEventSpec
  | .mk x m _ b e a c => .mk x m .inferred b e a c

/-- Rust `set_timestamp`: `self.timestamp = Option3::Specific(Some(t))`. -/
def ExceptionEventSpec.set_timestamp (st : Nat) : ExceptionEventSpec → ExceptionEventSpec
  | .mk x m _ b e a c => .mk x m (.specific (some st)) b e a c

/-- Rust `timestamp_now`: `self.timestamp = Option3::Specific(None)`. -/
def ExceptionEventSpec.timestamp_now : ExceptionEventSpec → ExceptionEventSpec
  | .mk x m _ b e a c => .mk x m (.specific none) b e a c

/-- Rust `backtrace`: `self.backtrace = Option3::Inferred`. -/
def ExceptionEventSpec.backtrace : ExceptionEventSpec → ExceptionEventSpec
  | .mk x m t _ e a c => .mk x m t .inferred e a c

/-- Rust `override_backtrace`: `self.backtrace = Option3::Specific(v)`. -/
def ExceptionEventSpec.override_backtrace (v : String) : ExceptionEventSpec → ExceptionEventSpec
  | .mk x m t _ e a c => .mk x m t (.specific v) e a c

/-- Rust `escaped`: `self.escaped = Some(b)`. -/
def ExceptionEventSpec.escaped (hasEscaped : Bool) : ExceptionEventSpec → ExceptionEventSpec
  | .mk x m t b _ a c => .mk x m t b (some hasEscaped) a c

/-- Rust `all_attachments` / `attachments` / `attachments_of_type_id`: push the
corresponding action. -/
def ExceptionEventSpec.push_action (act : AttachmentAction) : ExceptionEventSpec → ExceptionEventSpec
  | .mk x m t b e a c => .mk x m t b e (a ++ [act]) c

/-- Rust `recurse`: `self.children = Option3::Inferred`. -/
def ExceptionEventSpec.recurse : ExceptionEventSpec → ExceptionEventSpec
  | .mk x m t b e a _ => .mk x m t b e a .inferred

/-- Rust `children(spec)`: `self.children = Option3::Specific(spec)`. -/
def ExceptionEventSpec.set_children (child : ExceptionEventSpec) :
    ExceptionEventSpec → ExceptionEventSpec
  | .mk x m t b e a _ => .mk x m t b e a (.specific child)

/-- Rust `ExceptionEventSpec::new`: all fields at their empty defaults. -/
def ExceptionEventSpec.new : ExceptionEventSpec :=
  .mk .default none .default .default none [] .default

/-- Rust `ExceptionEventConfigExt::with_defaults`:
`self.ex_type().timestamped().backtrace()`. -/
def ExceptionEventSpec.with_defaults (s : ExceptionEventSpec) : ExceptionEventSpec :=
  s.ex_type.timestamped.backtrace

/-- Rust `impl Default for ExceptionEventSpec`: `Self::new().with_defaults()`. -/
def ExceptionEventSpec.defaultSpec : ExceptionEventSpec :=
  ExceptionEventSpec.new.with_defaults

/-- Rust `ExceptionEventSpec::inject`, specialised to a target that is itself an
`ExceptionEventSpec` (the `&mut ExceptionEventSpec` impl of the config
trait): replay each recorded setting onto `other`. -/
def ExceptionEventSpec.inject (s other : ExceptionEventSpec) : ExceptionEventSpec :=
  let other := match s.exTypeF with
    | .default => other
    | .inferred => other.ex_type
    | .specific v => other.set_ex_type v
  let other := match s.customMessageF with
    | some msg => other.custom_message msg
    | none => other
  let other := match s.timestampF with
    | .default => other
    | .inferred => other.timestamped
    | .specific none => other.timestamp_now
    | .specific (some st) => other.set_timestamp st
  let other := match s.backtraceF with
    | .default => other
    | .inferred => other.backtrace
    | .specific bt => other.override_backtrace bt
  let other := match s.escapedF with
    | some h => other.escaped h
    | none => other
  let other := s.attachmentsF.foldl (fun acc at_ => acc.push_action at_) other
  match s.childrenF with
  | .default => other
  | .inferred => other.recurse
  | .specific child => other.set_children child

/-! ### `span.rs` -/

/-- OpenTelemetry attribute values used by this crate: strings, booleans
and string arrays. -/
inductive AttrValue where
  | str (s : String)
  | boolean (b : Bool)
  | strArray (l : List String)
deriving DecidableEq, Repr

/-- The `exception.type` block of `attributes` (span.rs): `Unset` pushes
nothing, `Inferred` pushes the hard-coded placeholder `"Report<Dynamic>"`
(the line marked `// TODO!!!` in the source), `Specific` pushes the
given string. -/
def exTypeAttrs (spec : ExceptionEventSpec) : List (String × AttrValue) :=
  match spec.exTypeF with
  | .default => []
  | .inferred => [("exception.type", .str "Report<Dynamic>")]
  | .specific exTy => [("exception.type", .str exTy)]

/-- The `exception.message` block of `attributes`: the custom message if
set, otherwise the formatted context. -/
def messageAttrs (rep : ReportTree) (spec : ExceptionEventSpec) :
    List (String × AttrValue) :=
  match spec.customMessageF with
  | some msg => [("exception.message", AttrValue.str msg)]
  | none => [("exception.message", AttrValue.str rep.ctxText)]

/-- The `exception.stacktrace` block of `attributes`. -/
def backtraceAttrs (atts : EventAttachments) (spec : ExceptionEventSpec) :
    List (String × AttrValue) :=
  match spec.backtraceF, atts.backtrace with
  | .default, _ => []
  | .inferred, none => []
  | .inferred, some bt => [("exception.stacktrace", AttrValue.str bt)]
  | .specific bt, _ => [("exception.stacktrace", AttrValue.str bt)]

/-- The `exception.escaped` block of `attributes`. -/
def escapedAttrs (spec : ExceptionEventSpec) : List (String × AttrValue) :=
  match spec.escapedF with
  | some esc => [("exception.escaped", AttrValue.boolean esc)]
  | none => []

/-- The `exception.extras` block of `attributes`: the queued actions
applied against the digest, included as one string-array attribute when
non-empty. -/
def extrasAttrs (atts : EventAttachments) (spec : ExceptionEventSpec) :
    List (String × AttrValue) :=
  let extras := list_into_vec atts spec.attachmentsF []
  if extras.length > 0 then [("exception.extras", AttrValue.strArray extras)] else []

/-- Rust `attributes` (span.rs): the attribute list of one exception event,
assembled from the spec and the node's attachment digest by the source's
successive pushes: `exception.type`, `exception.message`,
`exception.stacktrace`, `exception.escaped`, `exception.extras`. -/
def attributes (rep : ReportTree) (atts : EventAttachments)
    (spec : ExceptionEventSpec) : List (String × AttrValue) :=
  exTypeAttrs spec ++ messageAttrs rep spec ++ backtraceAttrs atts spec
    ++ escapedAttrs spec ++ extrasAttrs atts spec

/-- One event as handed to the OpenTelemetry span: its name, the
explicitly supplied timestamp (`none` models `add_event`, where the
backend stamps the event with `now()`; `some t` models
`add_event_with_timestamp`), and its attributes. -/
structure EmittedEvent where
  name : String
  explicitTimestamp : Option Nat
  attrList : List (String × AttrValue)
deriving DecidableEq, Repr

/-- Rust `SpanRefExt::add_exception_event` (span.rs): build the digest and the
attributes, then add exactly one event on the span, choosing between
`add_event` and `add_event_with_timestamp` from the timestamp spec and
the digest.  `now` is the value `SystemTime::now()` would return.  The
result lists the events added to the span, in order. -/
def add_exception_event (now : Nat) (rep : ReportTree)
    (spec : ExceptionEventSpec) : List EmittedEvent :=
  let atts := EventAttachments.ofReport rep
  let timestampSpec := spec.timestampF
  let attrs := attributes rep atts spec
  match timestampSpec, atts.timestamp with
  | .default, _ => [⟨"exception", none, attrs⟩]
  | .inferred, none => [⟨"exception", none, attrs⟩]
  | .inferred, some st => [⟨"exception", some st, attrs⟩]
  | .specific none, _ => [⟨"exception", some now, attrs⟩]
  | .specific (some st), _ => [⟨"exception", some st, attrs⟩]

/-- The timestamp an emitted event ends up carrying: the explicit one if
supplied, otherwise the backend stamps it with `now()`. -/
def eventTimestamp (now : Nat) (ev : EmittedEvent) : Nat :=
  ev.explicitTimestamp.getD now

/-! ### `builder.rs` -/

/-- Rust `opentelemetry::trace::Status`, as used by the builder wrapper. -/
inductive SpanStatus where
  | unset
  | okStatus
  | errorStatus (description : String)
deriving DecidableEq, Repr

/-- Rust `ReportWrapper` (builder.rs): a report together with its span status
and accumulated event spec. -/
structure ReportWrapper where
  report : ReportTree
  status : SpanStatus
  spec : ExceptionEventSpec

/-- Rust `ReportWrapper::new`. -/
def ReportWrapper.new (rep : ReportTree) : ReportWrapper :=
  ⟨rep, .unset, ExceptionEventSpec.defaultSpec⟩

/-- Rust `Result<X, ReportWrapper>`: the `Result`-wrapped builder. -/
inductive RBuilder (X : Type) where
  | ok (x : X)
  | err (w : ReportWrapper)

/-- The panic message of Rust's `todo!()` macro. -/
def todoPanicMsg : String := "not yet implemented"

/-- Rust `ExceptionEventBuilder::spec` for `Result<X, ReportWrapper>`
(builder.rs lines 132-137): `Ok(_) => todo!()` — a panic, modelled as
`Except.error`; `Err(r) => r.spec()`. -/
def RBuilder.specAccess {X : Type} : RBuilder X → Except String ExceptionEventSpec
  | .ok _ => .error todoPanicMsg
  | .err w => .ok w.spec

/-- One configuration operation from `impl_eventconfig_for_builder` applied
to the `Result`-wrapped builder: `self.spec().map(|s| op(s)); self`.
The call to `spec()` panics on `Ok`, so the whole operation does. -/
def RBuilder.configOp {X : Type} (op : ExceptionEventSpec → ExceptionEventSpec) :
    RBuilder X → Except String (RBuilder X)
  | .ok _ => .error todoPanicMsg
  | .err w => .ok (.err { w with spec := op w.spec })

/-- The same operation on the plain `ReportWrapper` builder, whose
`spec()` returns `Some(&mut self.spec)`: total, never panics. -/
def ReportWrapper.configOp (op : ExceptionEventSpec → ExceptionEventSpec)
    (w : ReportWrapper) : ReportWrapper :=
  { w with spec := op w.spec }

/-- Rust `ReportWrapper::send` / `send_to` (builder.rs): one
`add_exception_event` call with the wrapper's report and spec. -/
def ReportWrapper.send (now : Nat) (w : ReportWrapper) : List EmittedEvent :=
  add_exception_event now w.report w.spec

/-! ### `event.rs`: `GranularExceptions` -/

/-- Rust `find_attachment::<A>` (attachments.rs): the first attachment of the
given inner type. -/
def find_attachment (rep : ReportTree) (tag : TypeTag) : Option Attachment :=
  rep.attachments.find? (fun a => a.tag = tag)

/-- Rust `Event::timestamp` for reports: the first `SystemTime` attachment's
value, if any. -/
def reportTimestamp (rep : ReportTree) : Option Nat :=
  (find_attachment rep TypeTag.systemTimeTag).map (fun a => a.timeVal)

/-- Rust `GranularExceptions::attributes` (event.rs): type and message always,
then the first backtrace attachment's text and the first location
attachment's text when present.  (The formatting-style sort computed at
the end of the source function is dead code: its result is unused.) -/
def granularAttributes (rep : ReportTree) : List (String × AttrValue) :=
  [("exception.type", AttrValue.str rep.ctxTypeName),
   ("exception.message", AttrValue.str rep.ctxText)]
  ++ (match find_attachment rep TypeTag.backtraceTag with
    | some bt => [("exception.stacktrace", AttrValue.str bt.text)]
    | none => [])
  ++ (match find_attachment rep TypeTag.locationTag with
    | some loc => [("exception.location", AttrValue.str loc.text)]
    | none => [])

/-- The one event `SpanExt::record_event` records for a
`GranularExceptions` node. -/
def granularNodeEvent (rep : ReportTree) : EmittedEvent :=
  ⟨"exception", reportTimestamp rep, granularAttributes rep⟩

mutual

/-- Rust `GranularExceptions::record_with_current_span` (event.rs lines
152-157): first recurse into every child, in order, then record this
node's own event.  The result is the sequence of events recorded on the
current span, in recording order. -/
def granularProject : ReportTree → List EmittedEvent
  | .node n t atts cs => granularProjectList cs ++ [granularNodeEvent (.node n t atts cs)]

/-- The `for c in self.0.children()` loop of
`record_with_current_span`. -/
def granularProjectList : List ReportTree → List EmittedEvent
  | [] => []
  | c :: cs => granularProject c ++ granularProjectList cs

end

/-! ### `event_builder.rs` -/

mutual

/-- Rust `EventConfig` (event_builder.rs): producer functions for the event's
fields, plus the recursor list pairing a child enumerator with a
config producer.  Recursive through `recursors`, so the
`Vec<(ReportRecursor, EventBuilderProducer)>` is inlined as the mutual
inductive `RecursorList`. -/
inductive EventConfig where
  | mk (type_name : ReportTree → Option String)
      (message : ReportTree → Option String)
      (timestampP : ReportTree → Option Nat)
      (backtraceP : ReportTree → Option String)
      (recursors : RecursorList)

/-- The `recursors` vector of an `EventConfig`. -/
inductive RecursorList where
  | nil
  | cons (recursor : ReportTree → List ReportTree)
      (confP : ReportTree → EventConfig) (rest : RecursorList)

end

/-- Accessor for the `type_name` producer. -/
def EventConfig.typeNameF : EventConfig → (ReportTree → Option String)
  | .mk tn _ _ _ _ => tn

/-- Accessor for the `message` producer. -/
def EventConfig.messageF : EventConfig → (ReportTree → Option String)
  | .mk _ m _ _ _ => m

/-- Accessor for the `timestamp` producer. -/
def EventConfig.timestampF : EventConfig → (ReportTree → Option Nat)
  | .mk _ _ t _ _ => t

/-- Accessor for the `backtrace` producer. -/
def EventConfig.backtraceF : EventConfig → (ReportTree → Option String)
  | .mk _ _ _ b _ => b

/-- Accessor for the recursor list. -/
def EventConfig.recursorsF : EventConfig → RecursorList
  | .mk _ _ _ _ r => r

/-- Rust `EventConfig::default_type_name`: `Some(any::type_name::<C>())`,
modelled as the report's context type name. -/
def default_type_name (r : ReportTree) : Option String :=
  some r.ctxTypeName

/-- Rust `EventConfig::display_message`: the formatted current context. -/
def display_message (r : ReportTree) : Option String :=
  some r.ctxText

/-- Rust `EventConfig::default_find_timestamp`: the first attachment that
downcasts to `SystemTime`. -/
def default_find_timestamp (r : ReportTree) : Option Nat :=
  reportTimestamp r

/-- Rust `EventConfig::default_find_backtrace`: the first backtrace
attachment's formatted text, or else the first location attachment's. -/
def default_find_backtrace (r : ReportTree) : Option String :=
  ((find_attachment r TypeTag.backtraceTag).map (fun a => a.text)).or
    ((find_attachment r TypeTag.locationTag).map (fun a => a.text))

/-- Rust `EventConfig::find_sent_to`: the first attachment that downcasts to
`SentTo` (the marker recorded when a report was already sent). -/
def find_sent_to (r : ReportTree) : Option Attachment :=
  find_attachment r TypeTag.sentToTag

/-- Rust `EventConfig::new`. -/
def EventConfig.new : EventConfig :=
  .mk default_type_name display_message default_find_timestamp
    default_find_backtrace .nil

/-- Rust `SpanExceptionEvent` (event_builder.rs). -/
structure SpanExceptionEvent where
  timestamp : Option Nat
  attrList : List (String × AttrValue)
deriving DecidableEq, Repr

/-- The body of `EventConfig::build` after the recursor loop: the node's
own event and the `ok` flag deciding whether it is pushed. -/
def EventConfig.buildOwn (c : EventConfig) (rep : ReportTree) : List SpanExceptionEvent :=
  let ts := c.timestampF rep
  let msgAttrs := match c.messageF rep with
    | some msg => [("exception.message", AttrValue.str msg)]
    | none => []
  let tyAttrs := match c.typeNameF rep with
    | some ty => [("exception.type", AttrValue.str ty)]
    | none => []
  let btAttrs := match c.backtraceF rep with
    | some bt => [("exception.stacktrace", AttrValue.str bt)]
    | none => []
  let ok := ((c.messageF rep).isSome || (c.typeNameF rep).isSome)
    && (find_sent_to rep).isNone
  if ok then [⟨ts, msgAttrs ++ tyAttrs ++ btAttrs⟩] else []

mutual

/-- Rust `EventConfig::build` (event_builder.rs lines 111-141): first run the
recursors, appending each sub-report's recursively built events, then
push this node's own event (when `ok`).  The recursion is through the
function-valued recursor list, which the source does not bound, so the
embedding carries explicit fuel; with the configs the source constructs
(`EventConfig::new`, empty recursors) any positive fuel is exact. -/
def EventConfig.build : Nat → EventConfig → ReportTree → List SpanExceptionEvent
  | 0, _, _ => []
  | fuel + 1, c, rep =>
    buildRecursors fuel (c.recursorsF) rep ++ c.buildOwn rep

/-- The `for (rec, conf) in self.recursors` loop of `EventConfig::build`,
then the inner `for sub in subs` loop. -/
def buildRecursors : Nat → RecursorList → ReportTree → List SpanExceptionEvent
  | _, .nil, _ => []
  | fuel, .cons recursor confP rest, rep =>
    buildSubs fuel confP (recursor rep) ++ buildRecursors fuel rest rep

/-- The inner loop: for each sub-report, derive its config and build. -/
def buildSubs : Nat → (ReportTree → EventConfig) → List ReportTree → List SpanExceptionEvent
  | _, _, [] => []
  | fuel, confP, sub :: subs =>
    EventConfig.build fuel (confP sub) sub ++ buildSubs fuel confP subs

end

/-! ### Specification-side descriptions of the Smart action

Two non-recursive restatements of attachment-listing rules, used to compare
`list_smartly` against the specification's words. -/

/-- The three reserved singleton types with dedicated digest fields. -/
def isReserved (t : TypeTag) : Bool :=
  t = TypeTag.systemTimeTag || t = TypeTag.backtraceTag || t = TypeTag.locationTag

/-- The Smart rule exactly as the specification words it: suppress each
reserved type's first occurrence, include everything else — including
key/value-typed attachments.  The already-suppressed tags are carried in
a seen-set. -/
def smartClaimedAux : List (TypeTag × String) → List TypeTag → List String
  | [], _ => []
  | (tag, s) :: rest, seen =>
    if isReserved tag then
      if tag ∈ seen then s :: smartClaimedAux rest seen
      else smartClaimedAux rest (tag :: seen)
    else s :: smartClaimedAux rest seen

/-- The specification's claimed Smart rule over a digest's `all` list. -/
def smartClaimedRule (l : List (TypeTag × String)) : List String :=
  smartClaimedAux l []

/-- The rule the code implements: like the claimed rule, but additionally
suppressing every key/value-typed entry, not only the first. -/
def smartAmendedAux : List (TypeTag × String) → List TypeTag → List String
  | [], _ => []
  | (tag, s) :: rest, seen =>
    if tag = TypeTag.keyValueTag then smartAmendedAux rest seen
    else if isReserved tag then
      if tag ∈ seen then s :: smartAmendedAux rest seen
      else smartAmendedAux rest (tag :: seen)
    else s :: smartAmendedAux rest seen

/-- The amended Smart rule over a digest's `all` list. -/
def smartAmendedRule (l : List (TypeTag × String)) : List String :=
  smartAmendedAux l []

/-! ### Concrete example inputs -/

/-- A leaf report with a single key/value-typed attachment. -/
def exampleKVReport : ReportTree :=
  .node "KvHolder" "kv ctx" [⟨TypeTag.keyValueTag, "kv", 0⟩] []

/-- A report with two timestamp-typed attachments and one backtrace-typed
attachment (the scenario of the Smart-action example). -/
def exampleTwoTsReport : ReportTree :=
  .node "TwoTs" "two ts ctx"
    [⟨TypeTag.systemTimeTag, "t1", 100⟩,
     ⟨TypeTag.systemTimeTag, "t2", 200⟩,
     ⟨TypeTag.backtraceTag, "bt0", 0⟩] []

/-- A report whose context type name is `IoError`. -/
def exampleIoReport : ReportTree :=
  .node "IoError" "disk full" [] []

/-- A spec whose type-name field alone is `Inferred`. -/
def exampleInferredTypeSpec : ExceptionEventSpec :=
  .mk .inferred none .default .default none [] .default

/-- A childless report carrying a `SentTo` attachment. -/
def exampleSentToReport : ReportTree :=
  .node "Sent" "sent ctx" [⟨TypeTag.sentToTag, "sent", 0⟩] []

/-- A child report for the projection-order example. -/
def exampleChildReport : ReportTree :=
  .node "Retry" "retrying" [] []

/-- A parent report with exactly one child, for the projection-order
example. -/
def exampleParentReport : ReportTree :=
  .node "IoError" "disk full" [] [exampleChildReport]

/-! ### Helper lemmas -/

theorem granularProjectList_eq (cs : List ReportTree) :
    granularProjectList cs = (cs.map granularProject).flatten := by
  induction cs with
  | nil => rfl
  | cons c cs ih => simp [granularProjectList, ih]

/-! ### Claims -/

/-- C10: `ExceptionEventSpec::default()` is not empty: type-name,
timestamp and backtrace are `Inferred`; message, escaped are unset; the
attachment-action list is empty; `children` is `Unset`, so a
default-configured projection infers type, timestamp and backtrace but
does not recurse into child reports. -/
theorem C10_default_spec :
    ExceptionEventSpec.defaultSpec =
      ExceptionEventSpec.mk Option3.inferred none Option3.inferred
        Option3.inferred none [] Option3.default := rfl

/-- C2 counterexample: the claim says marking a field inferred after an
explicit set leaves the `Explicit` value unchanged; but
`set_ex_type("X")` followed by `ex_type()` yields `Inferred`, not
`Specific("X")`. -/
theorem C2_counterexample :
    (ExceptionEventSpec.new.set_ex_type "X").ex_type.exTypeF = Option3.inferred ∧
    (ExceptionEventSpec.new.set_ex_type "X").ex_type.exTypeF ≠ Option3.specific "X" := by
  exact ⟨rfl, by decide⟩

/-- C2 (amended): for the configurable fields of the event spec builder,
marking a field inferred always sets it to `Inferred`, overwriting even
an earlier `Explicit` value (explicit is not sticky); marking inferred
twice equals marking it once; and setting an explicit value always
overwrites the field regardless of its current state. -/
theorem C2_merge_ops (s : ExceptionEventSpec) (v : String) (t : Nat) :
    s.ex_type.exTypeF = Option3.inferred ∧
    s.timestamped.timestampF = Option3.inferred ∧
    s.backtrace.backtraceF = Option3.inferred ∧
    s.ex_type.ex_type = s.ex_type ∧
    s.timestamped.timestamped = s.timestamped ∧
    s.backtrace.backtrace = s.backtrace ∧
    (s.set_ex_type v).exTypeF = Option3.specific v ∧
    (s.ex_type.set_ex_type v).exTypeF = Option3.specific v ∧
    (s.set_timestamp t).timestampF = Option3.specific (some t) ∧
    (s.override_backtrace v).backtraceF = Option3.specific v := by
  cases s
  exact ⟨rfl, rfl, rfl, rfl, rfl, rfl, rfl, rfl, rfl, rfl⟩

/-- C4: with the type-name field `Inferred`, the span-path `attributes`
function emits the hard-coded placeholder `"Report<Dynamic>"` (the line
marked `// TODO!!!` in span.rs), not the node's runtime context type
name: at a node whose context type name is `"IoError"` the emitted
`exception.type` is `"Report<Dynamic>"`. -/
theorem C4_inferred_type_placeholder :
    attributes exampleIoReport (EventAttachments.ofReport exampleIoReport)
        exampleInferredTypeSpec =
      [("exception.type", AttrValue.str "Report<Dynamic>"),
       ("exception.message", AttrValue.str "disk full")] ∧
    exampleIoReport.ctxTypeName = "IoError" ∧
    ("Report<Dynamic>" : String) ≠ "IoError" := by
  exact ⟨rfl, rfl, by decide⟩

/-- C5: calling a configuration operation (here `ex_type`) on the
`Result`-wrapped builder in its `Ok` state panics via the `todo!()` in
`Result::spec` (builder.rs line 134); the operation does not return a
value. -/
theorem C5_result_ok_config_panics :
    @RBuilder.configOp Unit ExceptionEventSpec.ex_type (RBuilder.ok ()) =
      Except.error todoPanicMsg := rfl

/-- C1 counterexample: on a parent report with one child, the first
event recorded by `GranularExceptions::record_with_current_span` is the
child's, not the parent's as the claim's pre-order requires. -/
theorem C1_counterexample :
    (granularProject exampleParentReport).head? =
      some (granularNodeEvent exampleChildReport) ∧
    granularNodeEvent exampleChildReport ≠ granularNodeEvent exampleParentReport := by
  exact ⟨rfl, by decide⟩

/-- C1 (amended): projection of a report node returns each child's
recursively projected events first, in original child order, each
child's subtree fully expanded before the next sibling, with the
parent's own event last (children-first post-order); the total count is
`1 +` the sum of the children's event counts. -/
theorem C1_projection_order (n t : String) (atts : List Attachment)
    (cs : List ReportTree) :
    granularProject (.node n t atts cs) =
      (cs.map granularProject).flatten ++ [granularNodeEvent (.node n t atts cs)] ∧
    (granularProject (.node n t atts cs)).length =
      1 + (cs.map (fun c => (granularProject c).length)).sum := by
  constructor
  · rw [granularProject, granularProjectList_eq]
  · rw [granularProject, granularProjectList_eq]
    simp [Function.comp]
    exact Nat.add_comm _ 1

/-- C6 counterexample: a childless report carrying a `SentTo`
attachment makes `EventConfig::build` (default config) produce zero
events, not the exactly one required by the claim regardless of
attachments. -/
theorem C6_counterexample :
    EventConfig.build 1 EventConfig.new exampleSentToReport = [] ∧
    exampleSentToReport.children = [] := by
  constructor
  · show EventConfig.build (0 + 1) EventConfig.new exampleSentToReport = []
    simp only [EventConfig.build, EventConfig.new, EventConfig.recursorsF,
      buildRecursors, List.nil_append, EventConfig.buildOwn, EventConfig.messageF,
      EventConfig.typeNameF, EventConfig.backtraceF, EventConfig.timestampF]
    decide
  · rfl

/-- C6 (amended): the span event path (`add_exception_event`) adds
exactly one event for every report and spec, regardless of children and
attachments; `EventConfig::build` with the default config produces
exactly one event for a report unless the report carries a `SentTo`
attachment, in which case it produces zero. -/
theorem C6_single_event (now : Nat) (rep : ReportTree)
    (spec : ExceptionEventSpec) (fuel : Nat) :
    (add_exception_event now rep spec).length = 1 ∧
    (EventConfig.build (fuel + 1) EventConfig.new rep).length =
      (if (find_sent_to rep).isSome then 0 else 1) := by
  constructor
  · simp only [add_exception_event]
    split <;> rfl
  · simp only [EventConfig.build, EventConfig.new, EventConfig.recursorsF,
      buildRecursors, List.nil_append, EventConfig.buildOwn, EventConfig.messageF,
      EventConfig.typeNameF, EventConfig.backtraceF, EventConfig.timestampF,
      display_message, default_type_name, Option.isSome_some, Bool.true_or]
    cases h : find_sent_to rep <;> simp [h]

/-- C7: the emitted event's timestamp is resolved as:
`Explicit(Some(t))` uses `t`; `Explicit(None)` uses `now()`; `Inferred`
uses the digest's timestamp when present, otherwise `now()`; `Unset`
omits an explicit timestamp (`add_event`), so the emission path supplies
`now()`.  The first equation gives the explicitly supplied timestamp
(`none` = omitted), the second the timestamp the event ends up with. -/
theorem C7_timestamp_resolution (now : Nat) (rep : ReportTree)
    (spec : ExceptionEventSpec) :
    (add_exception_event now rep spec).map EmittedEvent.explicitTimestamp =
      [match spec.timestampF, (EventAttachments.ofReport rep).timestamp with
       | .specific (some t), _ => some t
       | .specific none, _ => some now
       | .inferred, some st => some st
       | .inferred, none => none
       | .default, _ => none] ∧
    (add_exception_event now rep spec).map (eventTimestamp now) =
      [match spec.timestampF, (EventAttachments.ofReport rep).timestamp with
       | .specific (some t), _ => t
       | .specific none, _ => now
       | .inferred, some st => st
       | .inferred, none => now
       | .default, _ => now] := by
  rcases hts : spec.timestampF with _ | _ | ts
  · rcases hat : (EventAttachments.ofReport rep).timestamp with _ | st <;>
      simp [add_exception_event, hts, hat, eventTimestamp]
  · rcases hat : (EventAttachments.ofReport rep).timestamp with _ | st <;>
      simp [add_exception_event, hts, hat, eventTimestamp]
  · rcases ts with _ | t <;>
      rcases hat : (EventAttachments.ofReport rep).timestamp with _ | st <;>
      simp [add_exception_event, hts, hat, eventTimestamp]

theorem smartGo_eq_amendedAux (l : List (TypeTag × String)) :
    ∀ (seen : List TypeTag) (ts bt lt : Bool),
    (TypeTag.systemTimeTag ∈ seen ↔ ts = true) →
    (TypeTag.backtraceTag ∈ seen ↔ bt = true) →
    (TypeTag.locationTag ∈ seen ↔ lt = true) →
    smartGo l ts bt lt = smartAmendedAux l seen := by
  induction l with
  | nil => intro seen ts bt lt _ _ _; rfl
  | cons hd tl ih =>
    intro seen ts bt lt h1 h2 h3
    obtain ⟨tag, s⟩ := hd
    cases tag with
    | systemTimeTag =>
      cases ts with
      | true =>
        have hmem : TypeTag.systemTimeTag ∈ seen := h1.mpr rfl
        simp [smartGo, smartAmendedAux, isReserved, hmem,
          ih seen true bt lt h1 h2 h3]
      | false =>
        have hmem : TypeTag.systemTimeTag ∉ seen := by
          intro hc; simpa using h1.mp hc
        simp [smartGo, smartAmendedAux, isReserved, hmem,
          ih (TypeTag.systemTimeTag :: seen) true bt lt
            (by simp) (by simpa using h2) (by simpa using h3)]
    | backtraceTag =>
      cases bt with
      | true =>
        have hmem : TypeTag.backtraceTag ∈ seen := h2.mpr rfl
        simp [smartGo, smartAmendedAux, isReserved, hmem,
          ih seen ts true lt h1 h2 h3]
      | false =>
        have hmem : TypeTag.backtraceTag ∉ seen := by
          intro hc; simpa using h2.mp hc
        simp [smartGo, smartAmendedAux, isReserved, hmem,
          ih (TypeTag.backtraceTag :: seen) ts true lt
            (by simpa using h1) (by simp) (by simpa using h3)]
    | locationTag =>
      cases lt with
      | true =>
        have hmem : TypeTag.locationTag ∈ seen := h3.mpr rfl
        simp [smartGo, smartAmendedAux, isReserved, hmem,
          ih seen ts bt true h1 h2 h3]
      | false =>
        have hmem : TypeTag.locationTag ∉ seen := by
          intro hc; simpa using h3.mp hc
        simp [smartGo, smartAmendedAux, isReserved, hmem,
          ih (TypeTag.locationTag :: seen) ts bt true
            (by simpa using h1) (by simpa using h2) (by simp)]
    | keyValueTag =>
      simp [smartGo, smartAmendedAux, isReserved, ih seen ts bt lt h1 h2 h3]
    | sentToTag =>
      simp [smartGo, smartAmendedAux, isReserved, ih seen ts bt lt h1 h2 h3]
    | otherTag n =>
      simp [smartGo, smartAmendedAux, isReserved, ih seen ts bt lt h1 h2 h3]

/-- C3 counterexample: on a node whose only attachment is
key/value-typed, the Smart action's output is empty, while the claim
(include every non-reserved-type attachment) requires the key/value's
text to appear. -/
theorem C3_counterexample :
    list_smartly (EventAttachments.ofReport exampleKVReport) = [] ∧
    smartClaimedRule (EventAttachments.ofReport exampleKVReport).all = ["kv"] := by
  exact ⟨rfl, rfl⟩

/-- C3 (amended): the Smart action suppresses the first occurrence of
each of the three reserved types (timestamp, backtrace, location) and
additionally suppresses every key/value-typed attachment; it includes
every other attachment's formatted text — including duplicate
reserved-type attachments beyond the first — in original order.  For the
node with two timestamp-typed attachments and one backtrace-typed
attachment the extras list is exactly the second timestamp's text. -/
theorem C3_smart_action (atts : EventAttachments) :
    list_smartly atts = smartAmendedRule atts.all ∧
    list_smartly (EventAttachments.ofReport exampleTwoTsReport) = ["t2"] := by
  constructor
  · exact smartGo_eq_amendedAux atts.all [] false false false
      (by simp) (by simp) (by simp)
  · rfl

theorem foldl_stepFrom (ats : List Attachment) :
    ∀ acc : EventAttachments,
    ats.foldl stepFrom acc =
      { timestamp := acc.timestamp.or
          ((ats.find? (fun a => a.tag = TypeTag.systemTimeTag)).map Attachment.timeVal),
        backtrace := acc.backtrace.or
          ((ats.find? (fun a => a.tag = TypeTag.backtraceTag)).map Attachment.text),
        location := acc.location.or
          ((ats.find? (fun a => a.tag = TypeTag.locationTag)).map Attachment.text),
        all := acc.all ++ ats.map (fun a => (a.tag, a.text)),
        keyvals := acc.keyvals ++ ats.filterMap downcastKeyValueText } := by
  induction ats with
  | nil => intro acc; simp
  | cons a ats ih =>
    intro acc
    rw [List.foldl_cons, ih]
    obtain ⟨tag, tx, tv⟩ := a
    obtain ⟨ots, obt, olc, oall, okv⟩ := acc
    cases tag <;> cases ots <;> cases obt <;> cases olc <;>
      simp [stepFrom, downcastSystemTime, downcastLocationText,
        downcastKeyValueText, downcastBacktraceText, Option.or,
        List.find?, List.filterMap]

/-- C8: the attachment classifier records out-of-band only the first
timestamp-typed, first backtrace-typed and first location-typed
attachment, while recording every attachment's (type tag, formatted
text) pair in the digest's `all` list unconditionally, in original
order, with no error for unknown types. -/
theorem C8_classifier (rep : ReportTree) :
    (EventAttachments.ofReport rep).all =
      rep.attachments.map (fun a => (a.tag, a.text)) ∧
    (EventAttachments.ofReport rep).timestamp =
      (rep.attachments.find? (fun a => a.tag = TypeTag.systemTimeTag)).map
        Attachment.timeVal ∧
    (EventAttachments.ofReport rep).backtrace =
      (rep.attachments.find? (fun a => a.tag = TypeTag.backtraceTag)).map
        Attachment.text ∧
    (EventAttachments.ofReport rep).location =
      (rep.attachments.find? (fun a => a.tag = TypeTag.locationTag)).map
        Attachment.text := by
  unfold EventAttachments.ofReport
  rw [foldl_stepFrom]
  exact ⟨by simp, rfl, rfl, rfl⟩

theorem list_into_vec_eq (atts : EventAttachments) (actions : List AttachmentAction) :
    ∀ res, list_into_vec atts actions res =
      res ++ (actions.map (applyAction atts)).flatten := by
  induction actions with
  | nil => intro res; simp [list_into_vec]
  | cons a rest ih => intro res; simp [list_into_vec, ih]

theorem filter_extras_exTypeAttrs (spec : ExceptionEventSpec) :
    (exTypeAttrs spec).filter (fun p => p.1 = "exception.extras") = [] := by
  unfold exTypeAttrs; split <;> simp

theorem filter_extras_messageAttrs (rep : ReportTree) (spec : ExceptionEventSpec) :
    (messageAttrs rep spec).filter (fun p => p.1 = "exception.extras") = [] := by
  unfold messageAttrs; split <;> simp

theorem filter_extras_backtraceAttrs (atts : EventAttachments) (spec : ExceptionEventSpec) :
    (backtraceAttrs atts spec).filter (fun p => p.1 = "exception.extras") = [] := by
  unfold backtraceAttrs; split <;> simp

theorem filter_extras_escapedAttrs (spec : ExceptionEventSpec) :
    (escapedAttrs spec).filter (fun p => p.1 = "exception.extras") = [] := by
  unfold escapedAttrs; split <;> simp

/-- C9: for every digest and spec, the extras list is the concatenation,
in the order the attachment actions were queued, of each action's output
against the digest (no de-duplication between actions); and the
attribute list carries the `exception.extras` key exactly when that list
is non-empty, as one string-array attribute holding it. -/
theorem C9_extras_assembly (rep : ReportTree) (atts : EventAttachments)
    (spec : ExceptionEventSpec) (actions : List AttachmentAction)
    (res : List String) :
    list_into_vec atts actions res =
      res ++ (actions.map (applyAction atts)).flatten ∧
    (attributes rep atts spec).filter (fun p => p.1 = "exception.extras") =
      (if list_into_vec atts spec.attachmentsF [] = [] then []
       else [("exception.extras",
         AttrValue.strArray (list_into_vec atts spec.attachmentsF []))]) := by
  refine ⟨list_into_vec_eq atts actions res, ?_⟩
  simp only [attributes, List.filter_append, filter_extras_exTypeAttrs,
    filter_extras_messageAttrs, filter_extras_backtraceAttrs,
    filter_extras_escapedAttrs, List.nil_append, extrasAttrs]
  by_cases hx : list_into_vec atts spec.attachmentsF [] = [] <;>
    simp [hx, List.length_pos]

end RootcauseOtel
